import Mathlib

/-!
Verification development for the log ingestion and parsing engine of the
collector repository (src/logs/parse.go). The Go code is shallowly embedded:
Go strings are byte sequences and are modelled as `List Nat` of byte values
(the log data is ASCII; `len` is the list length), the regular expressions of
parse.go are built from a small combinator library implementing Go's anchored
leftmost-first (backtracking-priority) matching with capture groups, Go's
`time.Parse` is modelled for the three layouts the source uses, and the buffer
scanner is a fold over the newline-split buffer, exactly mirroring the loop of
ParseAndAnalyzeBuffer. int64 byte offsets are `Int` (no claim depends on
64-bit wraparound); `strconv.Atoi`'s int64 clamping and the `int32`
truncation of the backend pid are modelled exactly.
-/

namespace Collector

/-- Shorthand turning a Lean string literal into the byte-list representation
used throughout the embedding. -/
def str (s : String) : List Nat := s.data.map Char.toNat

/-! ## Model of Go `time.Time` values as produced by `time.Parse`

A parsed timestamp is reduced to absolute seconds since 0001-01-01 00:00:00 UTC
(Go's zero `time.Time`) plus nanoseconds; `Before` compares these, as Go's
`Time.Before` compares absolute instants. -/

structure GoTime where
  sec : Int
  nsec : Nat
deriving DecidableEq

/-- Model of Go `time.Time.Before`. -/
def GoTime.Before (a b : GoTime) : Bool :=
  decide (a.sec < b.sec) || (decide (a.sec = b.sec) && decide (a.nsec < b.nsec))

/-- Go's zero `time.Time` (January 1, year 1, 00:00:00 UTC). -/
def goZeroTime : GoTime := ⟨0, 0⟩

def isLeapYear (y : Nat) : Bool :=
  y % 4 == 0 && (y % 100 != 0 || y % 400 == 0)

def daysInMonth (y m : Nat) : Nat :=
  if m = 2 then (if isLeapYear y then 29 else 28)
  else if m = 4 ∨ m = 6 ∨ m = 9 ∨ m = 11 then 30
  else 31

def daysBeforeMonth (y m : Nat) : Nat :=
  (List.range (m - 1)).foldl (fun a i => a + daysInMonth y (i + 1)) 0

/-- Days from 0001-01-01 to the start of year `y` (proleptic Gregorian,
`y ≥ 1`; the log grammars only produce four-digit years). -/
def daysBeforeYear (y : Nat) : Nat :=
  365 * (y - 1) + (y - 1) / 4 - (y - 1) / 100 + (y - 1) / 400

/-- Seconds from Go's zero time to the given civil date-time taken in UTC. -/
def civilSec (y mo d h mi s : Nat) : Int :=
  ((daysBeforeYear y + daysBeforeMonth y mo + (d - 1)) * 86400 + h * 3600 + mi * 60 + s : Nat)

/-! ## Regular expressions: a combinator library with Go's semantics

Every pattern in parse.go is anchored at `^`, repetition is only ever applied
to single-character classes or to bounded optional groups, and there is no
alternation beyond `(...)?`, so a matcher can enumerate all prefix matches in
backtracking-priority order (greedy repetition longest-first, optional groups
present-first) as a finite list. Go's regexp package implements exactly this
leftmost-first priority; with a `^` anchor the first entry of the enumeration
is the match `FindStringSubmatch` returns, and `MatchString` is nonemptiness. -/

structure MRes where
  consumed : List Nat
  caps : List (List Nat)
  rest : List Nat
deriving DecidableEq

/-- A matcher: all ways to match a prefix of the input, in Go's
backtracking-priority order. `consumed ++ rest` is always the input. -/
abbrev M : Type := List Nat → List MRes

/-- Empty pattern. -/
def mEps : M := fun s => [⟨[], [], s⟩]

/-- Literal text. -/
def mLit (t : List Nat) : M := fun s =>
  if s.take t.length = t then [⟨t, [], s.drop t.length⟩] else []

/-- A single character of a class. -/
def mChar (p : Nat → Bool) : M := fun s =>
  match s with
  | [] => []
  | c :: cs => if p c then [⟨[c], [], cs⟩] else []

/-- Greedy `cls*`: longest run first, down to the empty match. -/
def mClsStar (p : Nat → Bool) : M := fun s =>
  let k := (s.takeWhile p).length
  (List.range (k + 1)).map (fun j => ⟨s.take (k - j), [], s.drop (k - j)⟩)

/-- Greedy `cls+`: longest run first, at least one character. -/
def mClsPlus (p : Nat → Bool) : M := fun s =>
  let k := (s.takeWhile p).length
  (List.range k).map (fun j => ⟨s.take (k - j), [], s.drop (k - j)⟩)

/-- Exactly `n` characters of a class (`cls{n}`). -/
def mClsRep (p : Nat → Bool) (n : Nat) : M := fun s =>
  if (s.take n).length = n ∧ (s.take n).all p then [⟨s.take n, [], s.drop n⟩] else []

/-- Sequencing; the priority order of the left matcher dominates. -/
def mSeq (a b : M) : M := fun s =>
  (a s).flatMap fun r =>
    (b r.rest).map fun r2 => ⟨r.consumed ++ r2.consumed, r.caps ++ r2.caps, r2.rest⟩

/-- Concatenation of a whole list of matchers. -/
def mCat : List M → M
  | [] => mEps
  | m :: ms => mSeq m (mCat ms)

/-- Greedy `(...)?`: the present branch first; when absent, the `ngroups`
capture groups inside report empty, as Go's `FindStringSubmatch` does. -/
def mOpt (a : M) (ngroups : Nat) : M := fun s =>
  a s ++ [⟨[], List.replicate ngroups [], s⟩]

/-- A capture group: records its consumed text, numbered before inner groups. -/
def mGroup (a : M) : M := fun s =>
  (a s).map fun r => ⟨r.consumed, r.consumed :: r.caps, r.rest⟩

/-- The `$` anchor (Go default: end of text). -/
def mEnd : M := fun s => if s = [] then [⟨[], [], s⟩] else []

/-- Model of `MatchString` for a `^`-anchored pattern. -/
def reMatch (m : M) (s : List Nat) : Bool := !(m s).isEmpty

/-- Model of `FindStringSubmatch` for a `^`-anchored pattern: `none` when there
is no match, otherwise the whole match followed by the capture groups (so the
returned list has length 1 + number of groups, like Go's slice). -/
def reFind (m : M) (s : List Nat) : Option (List (List Nat)) :=
  match m s with
  | [] => none
  | r :: _ => some (r.consumed :: r.caps)

/-- parts[i] of a `FindStringSubmatch` result. -/
def part (ps : List (List Nat)) (i : Nat) : List Nat := ps.getD i []

/-! ### Character classes used by parse.go's patterns (Go defaults, ASCII
bytes: 9 = tab, 10 = newline, 12 = form feed, 13 = carriage return,
32 = space, 43 = plus, 45 = minus, 48-57 = digits, 65-90 = upper case,
95 = underscore, 97-122 = lower case) -/

def isDigitCh (b : Nat) : Bool := decide (48 ≤ b) && decide (b ≤ 57)

/-- Go `\w` = `[0-9A-Za-z_]`. -/
def isWordCh (b : Nat) : Bool :=
  isDigitCh b || (decide (65 ≤ b) && decide (b ≤ 90)) ||
  (decide (97 ≤ b) && decide (b ≤ 122)) || b == 95

/-- Go `\s` = `[\t\n\f\r ]`. -/
def isSpaceCh (b : Nat) : Bool :=
  b == 32 || b == 9 || b == 10 || b == 12 || b == 13

def isNonSpaceCh (b : Nat) : Bool := !isSpaceCh b

/-- Go `.` (default flags: any character but newline). -/
def isDotCh (b : Nat) : Bool := !(b == 10)

def isSignCh (b : Nat) : Bool := b == 45 || b == 43

def isDigitOrDashCh (b : Nat) : Bool := isDigitCh b || b == 45

/-! ### The patterns of parse.go

Each definition below is the direct transcription of the regexp variable of
the same name in src/logs/parse.go, with the sub-patterns (`TimeRegexp`,
`PidRegexp`, ...) inlined exactly as the Go source concatenates them. -/

/-- Sub-pattern `%t`/`%m`:
`(\d{4}-\d{2}-\d{2} \d{2}:\d{2}:\d{2}(?:\.\d+)? [\-+]?\w+)`. -/
def TimeRegexp : M :=
  mGroup (mCat [mClsRep isDigitCh 4, mLit (str "-"), mClsRep isDigitCh 2,
    mLit (str "-"), mClsRep isDigitCh 2, mLit (str " "), mClsRep isDigitCh 2,
    mLit (str ":"), mClsRep isDigitCh 2, mLit (str ":"), mClsRep isDigitCh 2,
    mOpt (mCat [mLit (str "."), mClsPlus isDigitCh]) 0, mLit (str " "),
    mOpt (mChar isSignCh) 0, mClsPlus isWordCh])

/-- Sub-pattern `%r`: `(.+(?:\(\d+\))?)?`. -/
def HostAndPortRegexp : M :=
  mOpt (mGroup (mCat [mClsPlus isDotCh,
    mOpt (mCat [mLit (str "("), mClsPlus isDigitCh, mLit (str ")")]) 0])) 1

/-- Sub-pattern `%p`: `(\d+)`. -/
def PidRegexp : M := mGroup (mClsPlus isDigitCh)

/-- Sub-patterns `%u`, `%d`, `%a`, `%h`: `(\S*)`. -/
def NonSpaceGroupRegexp : M := mGroup (mClsStar isNonSpaceCh)

/-- Sub-pattern `%v`: `(\d+/\d+)?`. -/
def VirtualTxRegexp : M :=
  mOpt (mGroup (mCat [mClsPlus isDigitCh, mLit (str "/"), mClsPlus isDigitCh])) 1

/-- Sub-pattern `%l`: `(\d+)`. -/
def LogLineCounterRegexp : M := mGroup (mClsPlus isDigitCh)

/-- Sub-pattern `%e`: `(\w{5})`. -/
def SqlstateRegexp : M := mGroup (mClsRep isWordCh 5)

/-- Sub-pattern `%x`: `(\d+)`. -/
def TransactionIdRegexp : M := mGroup (mClsPlus isDigitCh)

/-- `(\w+):\s+(.*\n?)$`. -/
def LevelAndContentRegexp : M :=
  mCat [mGroup (mClsPlus isWordCh), mLit (str ":"), mClsPlus isSpaceCh,
    mGroup (mCat [mClsStar isDotCh, mOpt (mChar (fun b => b == 10)) 0]), mEnd]

/-- `^` + TimeRegexp + `:` + HostAndPortRegexp + `:` + UserRegexp + `@` +
DbRegexp + `:\[` + PidRegexp + `\]:` + LevelAndContentRegexp. -/
def LogPrefixAmazonRdsRegxp : M :=
  mCat [TimeRegexp, mLit (str ":"), HostAndPortRegexp, mLit (str ":"),
    NonSpaceGroupRegexp, mLit (str "@"), NonSpaceGroupRegexp, mLit (str ":["),
    PidRegexp, mLit (str "]:"), LevelAndContentRegexp]

/-- `^` + TimeRegexp + ` \[` + PidRegexp + `\]\[` + VirtualTxRegexp +
`\] : \[` + LogLineCounterRegexp + `-1\] (?:\[app=` + AppRegexp + `\] )?` +
LevelAndContentRegexp. -/
def LogPrefixCustom1Regexp : M :=
  mCat [TimeRegexp, mLit (str " ["), PidRegexp, mLit (str "]["),
    VirtualTxRegexp, mLit (str "] : ["), LogLineCounterRegexp, mLit (str "-1] "),
    mOpt (mCat [mLit (str "[app="), NonSpaceGroupRegexp, mLit (str "] ")]) 1,
    LevelAndContentRegexp]

/-- `^` + TimeRegexp + ` \[` + PidRegexp + `-` + LogLineCounterRegexp + `\] ` +
`(?:` + UserRegexp + `@` + DbRegexp + ` )?` + LevelAndContentRegexp. -/
def LogPrefixCustom2Regexp : M :=
  mCat [TimeRegexp, mLit (str " ["), PidRegexp, mLit (str "-"), LogLineCounterRegexp,
    mLit (str "] "),
    mOpt (mCat [NonSpaceGroupRegexp, mLit (str "@"), NonSpaceGroupRegexp,
      mLit (str " ")]) 2,
    LevelAndContentRegexp]

/-- `^` + TimeRegexp + ` \[` + PidRegexp + `\] (?:\[user=` + UserRegexp +
`,db=` + DbRegexp + `,app=` + AppRegexp + `\] )?` + LevelAndContentRegexp. -/
def LogPrefixCustom3Regexp : M :=
  mCat [TimeRegexp, mLit (str " ["), PidRegexp, mLit (str "] "),
    mOpt (mCat [mLit (str "[user="), NonSpaceGroupRegexp, mLit (str ",db="),
      NonSpaceGroupRegexp, mLit (str ",app="), NonSpaceGroupRegexp,
      mLit (str "] ")]) 3,
    LevelAndContentRegexp]

/-- `^` + TimeRegexp + ` \[` + PidRegexp + `\] (?:\[user=` + UserRegexp +
`,db=` + DbRegexp + `,app=` + AppRegexp + `,host=` + HostRegexp + `\] )?` +
LevelAndContentRegexp. -/
def LogPrefixCustom4Regexp : M :=
  mCat [TimeRegexp, mLit (str " ["), PidRegexp, mLit (str "] "),
    mOpt (mCat [mLit (str "[user="), NonSpaceGroupRegexp, mLit (str ",db="),
      NonSpaceGroupRegexp, mLit (str ",app="), NonSpaceGroupRegexp,
      mLit (str ",host="), NonSpaceGroupRegexp, mLit (str "] ")]) 4,
    LevelAndContentRegexp]

/-- `^` + TimeRegexp + ` \[` + PidRegexp + `\]: \[` + LogLineCounterRegexp +
`-1\] user=` + UserRegexp + `,db=` + DbRegexp + ` - PG-` + SqlstateRegexp +
` ` + LevelAndContentRegexp. -/
def LogPrefixCustom5Regexp : M :=
  mCat [TimeRegexp, mLit (str " ["), PidRegexp, mLit (str "]: ["),
    LogLineCounterRegexp, mLit (str "-1] user="), NonSpaceGroupRegexp,
    mLit (str ",db="), NonSpaceGroupRegexp, mLit (str " - PG-"), SqlstateRegexp,
    mLit (str " "), LevelAndContentRegexp]

/-- `^` + TimeRegexp + ` \[` + PidRegexp + `\]: \[` + LogLineCounterRegexp +
`-1\] user=` + UserRegexp + `,db=` + DbRegexp + `,app=` + AppRegexp +
`,client=` + HostRegexp + ` ` + LevelAndContentRegexp. -/
def LogPrefixCustom6Regexp : M :=
  mCat [TimeRegexp, mLit (str " ["), PidRegexp, mLit (str "]: ["),
    LogLineCounterRegexp, mLit (str "-1] user="), NonSpaceGroupRegexp,
    mLit (str ",db="), NonSpaceGroupRegexp, mLit (str ",app="), NonSpaceGroupRegexp,
    mLit (str ",client="), NonSpaceGroupRegexp, mLit (str " "), LevelAndContentRegexp]

/-- `^` + TimeRegexp + ` \[` + PidRegexp + `\]: \[` + LogLineCounterRegexp +
`-1\] \[trx_id=` + TransactionIdRegexp + `\] user=` + UserRegexp + `,db=` +
DbRegexp + ` ` + LevelAndContentRegexp. -/
def LogPrefixCustom7Regexp : M :=
  mCat [TimeRegexp, mLit (str " ["), PidRegexp, mLit (str "]: ["),
    LogLineCounterRegexp, mLit (str "-1] [trx_id="), TransactionIdRegexp,
    mLit (str "] user="), NonSpaceGroupRegexp, mLit (str ",db="),
    NonSpaceGroupRegexp, mLit (str " "), LevelAndContentRegexp]

/-- `^` + TimeRegexp + ` \[` + PidRegexp + `\] ` + LevelAndContentRegexp. -/
def LogPrefixSimpleRegexp : M :=
  mCat [TimeRegexp, mLit (str " ["), PidRegexp, mLit (str "] "), LevelAndContentRegexp]

/-- `^\[user=` + UserRegexp + `,db=` + DbRegexp + `,app=` + AppRegexp + `\] ` +
LevelAndContentRegexp. -/
def LogPrefixNoTimestampUserDatabaseAppRegexp : M :=
  mCat [mLit (str "[user="), NonSpaceGroupRegexp, mLit (str ",db="),
    NonSpaceGroupRegexp, mLit (str ",app="), NonSpaceGroupRegexp, mLit (str "] "),
    LevelAndContentRegexp]

/-- `(?:(\w+):\s+)?(.*\n?)$`. -/
def RsyslogLevelAndContentRegexp : M :=
  mCat [mOpt (mCat [mGroup (mClsPlus isWordCh), mLit (str ":"), mClsPlus isSpaceCh]) 1,
    mGroup (mCat [mClsStar isDotCh, mOpt (mChar (fun b => b == 10)) 0]), mEnd]

/-- `^(\w+\s+\d+ \d{2}:\d{2}:\d{2}) (\S+) (\w+)\[(\d+)\]: (\[[\d-]+\])? ` +
RsyslogLevelAndContentRegexp. -/
def RsyslogRegexp : M :=
  mCat [mGroup (mCat [mClsPlus isWordCh, mClsPlus isSpaceCh, mClsPlus isDigitCh,
      mLit (str " "), mClsRep isDigitCh 2, mLit (str ":"), mClsRep isDigitCh 2,
      mLit (str ":"), mClsRep isDigitCh 2]),
    mLit (str " "), mGroup (mClsPlus isNonSpaceCh), mLit (str " "),
    mGroup (mClsPlus isWordCh), mLit (str "["), mGroup (mClsPlus isDigitCh),
    mLit (str "]: "),
    mOpt (mGroup (mCat [mLit (str "["), mClsPlus isDigitOrDashCh, mLit (str "]")])) 1,
    mLit (str " "), RsyslogLevelAndContentRegexp]

/-- `^(\w+ \d+ \d+:\d+:\d+ \w+ app\[postgres\] \w+ )?\[(\w+)\] \[\d+-\d+\] `
`( sql_error_code = ` + SqlstateRegexp + ` (\w+):  )?(.+)`. -/
def HerokuPostgresDebugRegexp : M :=
  mCat [mOpt (mGroup (mCat [mClsPlus isWordCh, mLit (str " "), mClsPlus isDigitCh,
      mLit (str " "), mClsPlus isDigitCh, mLit (str ":"), mClsPlus isDigitCh,
      mLit (str ":"), mClsPlus isDigitCh, mLit (str " "), mClsPlus isWordCh,
      mLit (str " app[postgres] "), mClsPlus isWordCh, mLit (str " ")])) 1,
    mLit (str "["), mGroup (mClsPlus isWordCh), mLit (str "] ["),
    mClsPlus isDigitCh, mLit (str "-"), mClsPlus isDigitCh, mLit (str "] "),
    mOpt (mGroup (mCat [mLit (str " sql_error_code = "), SqlstateRegexp,
      mLit (str " "), mGroup (mClsPlus isWordCh), mLit (str ":  ")])) 3,
    mGroup (mClsPlus isDotCh)]

/-! ## Model of Go `time.Parse` for the three layouts the source uses

parse.go calls `time.Parse` with layout `"2006-01-02 15:04:05 -0700"`, with the
fallback layout `"2006-01-02 15:04:05 MST"`, and (for syslog lines) with
`"2006 Jan  2 15:04:05"`. The model below follows Go's parser for these
layouts: fixed-width numeric fields, a 1-2 digit field for the hour and the
day, an optional fractional second after the seconds even though no layout
names one, space runs in the layout matching space runs in the value,
`parseTimeZone`'s acceptance rule for zone abbreviations, and the range
validation of month, day, hour, minute and second. Named zone abbreviations
resolve to offset 0 (the process-local zone is taken to be UTC, under which Go
gives every abbreviation other than `GMT±h` a fabricated zero offset). -/

def digitsToNat (ds : List Nat) : Nat :=
  ds.foldl (fun a c => a * 10 + (c - 48)) 0

/-- Exactly `n` digits (Go `getnum` with `fixed`, and the four-digit year). -/
def readFixed (n : Nat) (s : List Nat) : Option (Nat × List Nat) :=
  if (s.take n).length = n ∧ (s.take n).all isDigitCh then
    some (digitsToNat (s.take n), s.drop n)
  else none

/-- One or two digits (Go `getnum` without `fixed`): two if the second
character is also a digit, else one. -/
def readNum12 (s : List Nat) : Option (Nat × List Nat) :=
  match s with
  | [] => none
  | [c] => if isDigitCh c then some (digitsToNat [c], []) else none
  | c :: c2 :: rest =>
    if isDigitCh c then
      if isDigitCh c2 then some (digitsToNat [c, c2], rest)
      else some (digitsToNat [c], c2 :: rest)
    else none

/-- A single literal layout character (Go `skip` on a non-space literal). -/
def readLit (c : Nat) (s : List Nat) : Option (List Nat) :=
  match s with
  | [] => none
  | c2 :: rest => if c2 = c then some rest else none

/-- A run of one or more spaces in the layout (Go `skip`: the value must start
with a space unless it is exhausted, and then all leading spaces of both are
consumed). -/
def skipSpaceTok (s : List Nat) : Option (List Nat) :=
  match s with
  | [] => some []
  | c :: rest => if c = 32 then some (rest.dropWhile (fun x => x = 32)) else none

/-- Go's opportunistic fractional second after the seconds field: present only
when a period or comma is directly followed by a digit; more than nine digits
is a parse error, fewer scale up to nanoseconds. Returns `(nsec, rest)`. -/
def readFrac (s : List Nat) : Option (Nat × List Nat) :=
  match s with
  | c :: c2 :: rest =>
    if (c = 46 ∨ c = 44) ∧ isDigitCh c2 then
      let ds := (c2 :: rest).takeWhile isDigitCh
      if 9 < ds.length then none
      else some (digitsToNat ds * 10 ^ (9 - ds.length), (c2 :: rest).drop ds.length)
    else some (0, c :: c2 :: rest)
  | _ => some (0, s)

/-- The numeric zone of layout `-0700`: a sign and four digits, the offset in
seconds (Go applies no range check here beyond the digit syntax). -/
def readNumTZ (s : List Nat) : Option (Int × List Nat) :=
  match s with
  | sg :: h1 :: h2 :: m1 :: m2 :: rest =>
    if (sg = 43 ∨ sg = 45) ∧ ([h1, h2, m1, m2].all isDigitCh) then
      let off : Int := (digitsToNat [h1, h2] * 3600 + digitsToNat [m1, m2] * 60 : Nat)
      some (if sg = 45 then -off else off, rest)
    else none
  | _ => none

def isUpperCh (b : Nat) : Bool := decide (65 ≤ b) && decide (b ≤ 90)

/-- ASCII lower-casing, as Go's case-insensitive `match` uses it. -/
def toLowerCh (b : Nat) : Nat := if 65 ≤ b ∧ b ≤ 90 then b + 32 else b

/-- Go `parseSignedOffset`, as a consumed length (0 = failure): a sign, then a
nonempty digit run whose value is at most 24. -/
def parseSignedOffsetLen (s : List Nat) : Nat :=
  match s with
  | [] => 0
  | sg :: rest =>
    if sg = 43 ∨ sg = 45 then
      let ds := rest.takeWhile isDigitCh
      if ds = [] ∨ 24 < digitsToNat ds then 0 else 1 + ds.length
    else 0

/-- Go `parseGMT`: `GMT` possibly followed by a signed hour in -14..12. -/
def parseGMTLen (s : List Nat) : Nat :=
  match s.drop 3 with
  | [] => 3
  | sg :: rest =>
    if sg = 43 ∨ sg = 45 then
      let ds := rest.takeWhile isDigitCh
      let x : Int := if sg = 45 then -(digitsToNat ds : Int) else (digitsToNat ds : Int)
      if ds = [] ∨ x = 0 ∨ x < -14 ∨ 12 < x then 3 else 3 + 1 + ds.length
    else 3

/-- Go `parseTimeZone`: how many characters of the value form a zone
abbreviation, `none` when they do not look like one. -/
def parseTimeZoneLen (s : List Nat) : Option Nat :=
  if s.length < 3 then none
  else if s.take 4 = str "ChST" ∨ s.take 4 = str "MeST" then some 4
  else if s.take 3 = str "GMT" then some (parseGMTLen s)
  else if s.head? = some 43 ∨ s.head? = some 45 then
    match parseSignedOffsetLen s with
    | 0 => none
    | n => some n
  else
    match min ((s.takeWhile isUpperCh).length) 6 with
    | 3 => some 3
    | 4 => if s.getD 3 0 = 84 ∨ s.take 4 = str "WITA" then some 4 else none
    | 5 => if s.getD 4 0 = 84 then some 5 else none
    | _ => none

/-- The offset Go gives a parsed zone abbreviation when the local zone is UTC:
`GMT±h` carries its hour offset, everything else (including `UTC` itself and
every fabricated zone) is offset 0. -/
def zoneOffsetFromName (name : List Nat) : Int :=
  if name.take 3 = str "GMT" ∧ 3 < name.length then
    (match name.drop 3 with
     | 45 :: ds => -((digitsToNat (ds.takeWhile isDigitCh) : Int) * 3600)
     | 43 :: ds => (digitsToNat (ds.takeWhile isDigitCh) : Int) * 3600
     | _ => 0)
  else 0

/-- The named zone of layout `MST` (Go's `stdTZ` case): a literal `UTC`, or a
`parseTimeZone` abbreviation. Returns `(offset in seconds, rest)`. -/
def readNamedTZ (s : List Nat) : Option (Int × List Nat) :=
  if s.take 3 = str "UTC" then some (0, s.drop 3)
  else
    match parseTimeZoneLen s with
    | none => none
    | some n => some (zoneOffsetFromName (s.take n), s.drop n)

def shortMonthNames : List (List Nat) :=
  [str "Jan", str "Feb", str "Mar", str "Apr", str "May", str "Jun",
   str "Jul", str "Aug", str "Sep", str "Oct", str "Nov", str "Dec"]

/-- Go `lookup` over the short month names: the first name that is an
ASCII-case-insensitive prefix of the value, 1-based. -/
def readMonthNameAux : Nat → List (List Nat) → List Nat → Option (Nat × List Nat)
  | _, [], _ => none
  | i, n :: ns, s =>
    if (s.take n.length).length = n.length ∧
        (s.take n.length).map toLowerCh = n.map toLowerCh then
      some (i + 1, s.drop n.length)
    else readMonthNameAux (i + 1) ns s

def readMonthName (s : List Nat) : Option (Nat × List Nat) :=
  readMonthNameAux 0 shortMonthNames s

/-- The shared numeric prefix `2006-01-02 15:04:05` of the two Postgres
layouts, with Go's optional fractional second.
Returns `(y, mo, d, h, mi, se, nsec, rest)`. -/
def parsePgDateTime (s : List Nat) :
    Option (Nat × Nat × Nat × Nat × Nat × Nat × Nat × List Nat) := do
  let (y, s) ← readFixed 4 s
  let s ← readLit 45 s
  let (mo, s) ← readFixed 2 s
  let s ← readLit 45 s
  let (d, s) ← readFixed 2 s
  let s ← skipSpaceTok s
  let (h, s) ← readNum12 s
  let s ← readLit 58 s
  let (mi, s) ← readFixed 2 s
  let s ← readLit 58 s
  let (se, s) ← readFixed 2 s
  let (ns, s) ← readFrac s
  some (y, mo, d, h, mi, se, ns, s)

/-- Go's post-parse range validation: month, day in month, hour, minute,
second. -/
def validDate (y mo d h mi se : Nat) : Bool :=
  decide (1 ≤ mo) && decide (mo ≤ 12) && decide (1 ≤ d) &&
  decide (d ≤ daysInMonth y mo) && decide (h < 24) && decide (mi < 60) &&
  decide (se < 60)

def mkGoTime (y mo d h mi se ns : Nat) (offset : Int) : GoTime :=
  ⟨civilSec y mo d h mi se - offset, ns⟩

/-- The identifiers of the three layout strings parse.go passes to
`time.Parse`. -/
inductive TimeFmt where
  | pgDefault
  | pgNamedZone
  | syslog
deriving DecidableEq

/-- Model of Go `time.Parse` at the three layouts of parse.go. -/
def goTimeParse : TimeFmt → List Nat → Option GoTime
  | .pgDefault, s => do
    let (y, mo, d, h, mi, se, ns, s) ← parsePgDateTime s
    let s ← skipSpaceTok s
    let (off, s) ← readNumTZ s
    if s = [] ∧ validDate y mo d h mi se then some (mkGoTime y mo d h mi se ns off)
    else none
  | .pgNamedZone, s => do
    let (y, mo, d, h, mi, se, ns, s) ← parsePgDateTime s
    let s ← skipSpaceTok s
    let (off, s) ← readNamedTZ s
    if s = [] ∧ validDate y mo d h mi se then some (mkGoTime y mo d h mi se ns off)
    else none
  | .syslog, s => do
    let (y, s) ← readFixed 4 s
    let s ← skipSpaceTok s
    let (mo, s) ← readMonthName s
    let s ← skipSpaceTok s
    let (d, s) ← readNum12 s
    let s ← skipSpaceTok s
    let (h, s) ← readNum12 s
    let s ← readLit 58 s
    let (mi, s) ← readFixed 2 s
    let s ← readLit 58 s
    let (se, s) ← readFixed 2 s
    let (ns, s) ← readFrac s
    if s = [] ∧ validDate y mo d h mi se then some (mkGoTime y mo d h mi se ns 0)
    else none

/-- First the primary layout, then (when there is one) the fallback, exactly
as lines 254-264 of parse.go chain the two `time.Parse` calls. -/
def goTimeParse2 (fmt : TimeFmt) (alt : Option TimeFmt) (s : List Nat) : Option GoTime :=
  match goTimeParse fmt s with
  | some t => some t
  | none =>
    match alt with
    | some f => goTimeParse f s
    | none => none

/-! ## The LogLine record and the line parser -/

/-- Model of `state.LogLine` as used by parse.go (a field the parser never
touches is omitted); defaults are Go's zero values, and the UUID field is the
position of a record in the emission order of one scan, standing in for the
freshly generated random identifier of `uuid.NewV4()` (no claim depends on
anything but its freshness within a call). -/
structure LogLine where
  occurredAt : GoTime := ⟨0, 0⟩
  username : List Nat := []
  database : List Nat := []
  application : List Nat := []
  backendPid : Int := 0
  logLevel : Nat := 0
  content : List Nat := []
  byteStart : Int := 0
  byteContentStart : Int := 0
  byteEnd : Int := 0
  uuid : Nat := 0
deriving DecidableEq

/-- Modelled from the spec: the fixed level-name table
(`pganalyze_collector.LogLineInformation_LogLevel_value`, generated protobuf
code that is not under src/). The spec describes it as a fixed table mapping
severity names to enumerated values, with 0 the unknown level; the association
of the standard Postgres severity names to distinct nonzero codes is all the
claims depend on. -/
def logLevelTable : List (List Nat × Nat) :=
  [(str "UNKNOWN", 0), (str "DEBUG", 1), (str "INFO", 2), (str "NOTICE", 3),
   (str "WARNING", 4), (str "ERROR", 5), (str "LOG", 6), (str "FATAL", 7),
   (str "PANIC", 8), (str "DETAIL", 9), (str "STATEMENT", 10), (str "HINT", 11),
   (str "CONTEXT", 12), (str "QUERY", 13)]

def logLevelValue (s : List Nat) : Option Nat :=
  (logLevelTable.find? (fun p => p.1 == s)).map (fun p => p.2)

/-- Go `strconv.Atoi` on the pid capture, as parse.go uses it (the error is
discarded): 0 on a syntax error, the value clamped to int64 on overflow. -/
def goAtoi (s : List Nat) : Int :=
  if s ≠ [] ∧ s.all isDigitCh then min (digitsToNat s) (2 ^ 63 - 1) else 0

/-- The `int32(...)` conversion applied to the Atoi result. -/
def toInt32 (n : Int) : Int := (n + 2 ^ 31) % 2 ^ 32 - 2 ^ 31

/-- Go `strings.Replace(s, "#011", "\t", -1)`: every occurrence, left to
right (35, 48, 49, 49 are the bytes of `#011`, 9 is tab). -/
def replace011 : List Nat → List Nat
  | 35 :: 48 :: 49 :: 49 :: rest => 9 :: replace011 rest
  | c :: rest => c :: replace011 rest
  | [] => []

def natToDigits (n : Nat) : List Nat := str (Nat.repr n)

def LogPrefixAmazonRds : List Nat := str "%t:%r:%u@%d:[%p]:"

def LogPrefixCustom1 : List Nat := str "%m [%p][%v] : [%l-1] %q[app=%a] "

def LogPrefixCustom2 : List Nat := str "%t [%p-%l] %q%u@%d "

def LogPrefixCustom3 : List Nat := str "%m [%p] %q[user=%u,db=%d,app=%a] "

def LogPrefixCustom4 : List Nat := str "%m [%p] %q[user=%u,db=%d,app=%a,host=%h] "

def LogPrefixCustom5 : List Nat := str "%t [%p]: [%l-1] user=%u,db=%d - PG-%e "

def LogPrefixCustom6 : List Nat := str "%t [%p]: [%l-1] user=%u,db=%d,app=%a,client=%h "

def LogPrefixCustom7 : List Nat := str "%t [%p]: [%l-1] [trx_id=%x] user=%u,db=%d "

def LogPrefixSimple : List Nat := str "%m [%p] "

def LogPrefixEmpty : List Nat := str ""

def SupportedPrefixes : List (List Nat) :=
  [LogPrefixAmazonRds, LogPrefixCustom1, LogPrefixCustom2, LogPrefixCustom3,
   LogPrefixCustom4, LogPrefixCustom5, LogPrefixCustom6, LogPrefixCustom7,
   LogPrefixSimple, LogPrefixEmpty]

/-- The shared tail of ParseLogLineWithPrefix (parse.go lines 254-288): parse
the timestamp under the primary and fallback layouts, on failure return the
line as accumulated so far (`base`: zero except for the raw content set by the
default branch) with `ok = false`; on success scrub `[unknown]` sentinels, set
pid and content, fail without a level name, and otherwise look the level up in
the table (a missing name giving Go's map zero value 0) and succeed. -/
def finishParse (fmt : TimeFmt) (alt : Option TimeFmt) (base : LogLine)
    (timePart userPart dbPart appPart pidPart levelPart contentPart : List Nat) :
    LogLine × Bool :=
  match goTimeParse2 fmt alt timePart with
  | none => (base, false)
  | some t =>
    let ll : LogLine := { base with
      occurredAt := t,
      username := if userPart = str "[unknown]" then base.username else userPart,
      database := if dbPart = str "[unknown]" then base.database else dbPart,
      application := if appPart = str "[unknown]" then base.application else appPart,
      backendPid := toInt32 (goAtoi pidPart),
      content := contentPart }
    if levelPart = [] then (ll, false)
    else ({ ll with logLevel := (logLevelValue levelPart).getD 0 }, true)

/-- The auto-detection chain of parse.go lines 88-110: the result is the
prefix put into the `prefix` variable plus the `rsyslog` flag. -/
def detectPfx (line : List Nat) : List Nat × Bool :=
  if reMatch LogPrefixAmazonRdsRegxp line then (LogPrefixAmazonRds, false)
  else if reMatch LogPrefixCustom1Regexp line then (LogPrefixCustom1, false)
  else if reMatch LogPrefixCustom2Regexp line then (LogPrefixCustom2, false)
  else if reMatch LogPrefixCustom4Regexp line then (LogPrefixCustom4, false)
  else if reMatch LogPrefixCustom3Regexp line then (LogPrefixCustom3, false)
  else if reMatch LogPrefixCustom5Regexp line then (LogPrefixCustom5, false)
  else if reMatch LogPrefixCustom6Regexp line then (LogPrefixCustom6, false)
  else if reMatch LogPrefixCustom7Regexp line then (LogPrefixCustom7, false)
  else if reMatch LogPrefixSimpleRegexp line then (LogPrefixSimple, false)
  else if reMatch RsyslogRegexp line then ([], true)
  else ([], false)

/-- The rsyslog branch (parse.go lines 112-134): unwrap the syslog framing,
prepend the current year to the captured time, replace `#011` by tabs in the
payload, and try to recover user/database/application from the bracketed
sub-format. -/
def parseRsyslogLine (year : Nat) (line : List Nat) : LogLine × Bool :=
  match reFind RsyslogRegexp line with
  | none => ({}, false)
  | some parts =>
    let timePart := natToDigits year ++ [32] ++ part parts 1
    let pidPart := part parts 4
    let contentPart0 := replace011 (part parts 7)
    match reFind LogPrefixNoTimestampUserDatabaseAppRegexp contentPart0 with
    | some parts2 =>
      finishParse .syslog none {} timePart (part parts2 1) (part parts2 2)
        (part parts2 3) pidPart (part parts2 4) (part parts2 5)
    | none =>
      finishParse .syslog none {} timePart [] [] [] pidPart (part parts 6) contentPart0

/-- The `switch prefix` dispatch of parse.go lines 136-252, including the
default branch that stores the raw line as content for continuation
stitching. -/
def dispatchPfx (p line : List Nat) : LogLine × Bool :=
  if p = LogPrefixAmazonRds then
    match reFind LogPrefixAmazonRdsRegxp line with
    | none => ({}, false)
    | some parts =>
      finishParse .pgDefault (some .pgNamedZone) {} (part parts 1) (part parts 3)
        (part parts 4) [] (part parts 5) (part parts 6) (part parts 7)
  else if p = LogPrefixCustom1 then
    match reFind LogPrefixCustom1Regexp line with
    | none => ({}, false)
    | some parts =>
      finishParse .pgDefault (some .pgNamedZone) {} (part parts 1) [] []
        (part parts 5) (part parts 2) (part parts 6) (part parts 7)
  else if p = LogPrefixCustom2 then
    match reFind LogPrefixCustom2Regexp line with
    | none => ({}, false)
    | some parts =>
      finishParse .pgDefault (some .pgNamedZone) {} (part parts 1) (part parts 4)
        (part parts 5) [] (part parts 2) (part parts 6) (part parts 7)
  else if p = LogPrefixCustom3 then
    match reFind LogPrefixCustom3Regexp line with
    | none => ({}, false)
    | some parts =>
      finishParse .pgDefault (some .pgNamedZone) {} (part parts 1) (part parts 3)
        (part parts 4) (part parts 5) (part parts 2) (part parts 6) (part parts 7)
  else if p = LogPrefixCustom4 then
    match reFind LogPrefixCustom4Regexp line with
    | none => ({}, false)
    | some parts =>
      finishParse .pgDefault (some .pgNamedZone) {} (part parts 1) (part parts 3)
        (part parts 4) (part parts 5) (part parts 2) (part parts 7) (part parts 8)
  else if p = LogPrefixCustom5 then
    match reFind LogPrefixCustom5Regexp line with
    | none => ({}, false)
    | some parts =>
      finishParse .pgDefault (some .pgNamedZone) {} (part parts 1) (part parts 4)
        (part parts 5) [] (part parts 2) (part parts 7) (part parts 8)
  else if p = LogPrefixCustom6 then
    match reFind LogPrefixCustom6Regexp line with
    | none => ({}, false)
    | some parts =>
      finishParse .pgDefault (some .pgNamedZone) {} (part parts 1) (part parts 4)
        (part parts 5) [] (part parts 2) (part parts 8) (part parts 9)
  else if p = LogPrefixCustom7 then
    match reFind LogPrefixCustom7Regexp line with
    | none => ({}, false)
    | some parts =>
      finishParse .pgDefault (some .pgNamedZone) {} (part parts 1) (part parts 5)
        (part parts 6) [] (part parts 2) (part parts 7) (part parts 8)
  else if p = LogPrefixSimple then
    match reFind LogPrefixSimpleRegexp line with
    | none => ({}, false)
    | some parts =>
      finishParse .pgDefault (some .pgNamedZone) {} (part parts 1) [] [] []
        (part parts 2) (part parts 3) (part parts 4)
  else
    finishParse .pgDefault (some .pgNamedZone) { content := line } [] [] [] [] [] [] []

/-- Model of `ParseLogLineWithPrefix` (parse.go lines 79-289). The extra
`year` argument makes the call to `time.Now().Year()` in the rsyslog branch
explicit. -/
def ParseLogLineWithPrefix (year : Nat) (pfx line : List Nat) : LogLine × Bool :=
  let det := if pfx = [] then detectPfx line else (pfx, false)
  if det.2 then parseRsyslogLine year line else dispatchPfx det.1 line

/-! ## The buffer scanner -/

/-- Modelled from the spec: `AnalyzeLogLines` (src/logs/analyze.go is not
under src/) is the opaque downstream analysis collaborator, called exactly
once per buffer scan with the full produced sequence; its return values are
the final output. It is modelled as the identity on the log-line sequence
with no derived samples. -/
def AnalyzeLogLines (lls : List LogLine) : List LogLine × List Unit := (lls, [])

/-- The state threaded through the scan loop of ParseAndAnalyzeBuffer:
the `logLines` slice, the emission counter standing in for UUID generation,
and `currentByteStart`. -/
structure ScanSt where
  lls : List LogLine
  ctr : Nat
  off : Int
deriving DecidableEq

/-- Lines 315-316 of parse.go: extend the content and the byte_end of the last
emitted record. -/
def appendToLast : List LogLine → List Nat → List LogLine
  | [], _ => []
  | [l], c => [{ l with content := l.content ++ c, byteEnd := l.byteEnd + (c.length : Int) }]
  | l :: l2 :: ls, c => l :: appendToLast (l2 :: ls) c

/-- The splitting `bufio.Reader.ReadString('\n')` performs on the buffer: the
newline-terminated lines (each including its newline) and the trailing
fragment without a newline (possibly empty), which the loop reads together
with `io.EOF` and whose bytes it counts before breaking. -/
def splitBufAux : List Nat → List Nat → List (List Nat) × List Nat
  | acc, [] => ([], acc.reverse)
  | acc, c :: cs =>
    if c = 10 then
      let r := splitBufAux [] cs
      ((acc.reverse ++ [c]) :: r.1, r.2)
    else splitBufAux (c :: acc) cs

def splitBuf (buffer : List Nat) : List (List Nat) × List Nat :=
  splitBufAux [] buffer

/-- One iteration of the scan loop of ParseAndAnalyzeBuffer (lines 296-334)
on a complete line: advance the offset by the raw line length, then either
stitch (parse failed: append nonempty content to the last record if any,
else drop), or filter by the time cutoff, or stamp byte offsets and the
fresh identifier and append. -/
def scanStep (year : Nat) (cutoff : GoTime) (st : ScanSt) (line : List Nat) : ScanSt :=
  let byteStart := st.off
  let off2 := st.off + (line.length : Int)
  let pr := ParseLogLineWithPrefix year [] line
  if pr.2 = false then
    if st.lls ≠ [] ∧ pr.1.content ≠ [] then
      { st with lls := appendToLast st.lls pr.1.content, off := off2 }
    else { st with off := off2 }
  else if GoTime.Before pr.1.occurredAt cutoff then { st with off := off2 }
  else
    { lls := st.lls ++ [{ pr.1 with
        byteStart := byteStart,
        byteContentStart := byteStart + (line.length : Int) - (pr.1.content.length : Int),
        byteEnd := byteStart + (line.length : Int) - 1,
        uuid := st.ctr }],
      ctr := st.ctr + 1,
      off := off2 }

/-- Model of `ParseAndAnalyzeBuffer` (parse.go lines 291-338): scan the
complete lines, count the unterminated tail's bytes without parsing it, hand
the sequence to the analysis collaborator once, and return the final running
offset. -/
def ParseAndAnalyzeBuffer (year : Nat) (buffer : List Nat) (initialByteStart : Int)
    (linesNewerThan : GoTime) : List LogLine × List Unit × Int :=
  let sp := splitBuf buffer
  let st := sp.1.foldl (scanStep year linesNewerThan) ⟨[], 0, initialByteStart⟩
  let a := AnalyzeLogLines st.lls
  (a.1, a.2, st.off + (sp.2.length : Int))

/-- One iteration of the debug scan loop (parse.go lines 345-391). `none`
models the index-out-of-range panic of `logLines[len(logLines)-1]` in the
Heroku continuation branch, which has no emptiness guard. The general-parse
branch reproduces the source's shadowing of `logLine` ( `logLine, ok := ...`
declares a fresh variable inside the else block), so a line that parses
successfully there is emitted as the untouched outer zero record, stamped
with byte offsets only. -/
def debugStep (year : Nat) (st : ScanSt) (line : List Nat) : Option ScanSt :=
  let byteStart := st.off
  let off2 := st.off + (line.length : Int)
  match reFind HerokuPostgresDebugRegexp line with
  | some parts =>
    let content := part parts 6
    if part parts 4 ≠ [] ∧ part parts 5 ≠ [] then
      let ll : LogLine := {
        content := content,
        logLevel := (logLevelValue (part parts 5)).getD 0,
        byteStart := byteStart,
        byteContentStart := byteStart + (line.length : Int) - (content.length : Int),
        byteEnd := byteStart + (line.length : Int) - 1,
        uuid := st.ctr }
      some { lls := st.lls ++ [ll], ctr := st.ctr + 1, off := off2 }
    else if st.lls = [] then none
    else some { st with lls := appendToLast st.lls content, off := off2 }
  | none =>
    let pr := ParseLogLineWithPrefix year [] line
    if pr.2 = false then
      if st.lls ≠ [] ∧ pr.1.content ≠ [] then
        some { st with lls := appendToLast st.lls pr.1.content, off := off2 }
      else some { st with off := off2 }
    else
      let ll : LogLine := {
        byteStart := byteStart,
        byteContentStart := byteStart + (line.length : Int),
        byteEnd := byteStart + (line.length : Int) - 1,
        uuid := st.ctr }
      some { lls := st.lls ++ [ll], ctr := st.ctr + 1, off := off2 }

def debugScan (year : Nat) : List (List Nat) → ScanSt → Option ScanSt
  | [], st => some st
  | l :: ls, st =>
    match debugStep year st l with
    | none => none
    | some st2 => debugScan year ls st2

/-- Model of `DebugParseAndAnalyzeBuffer` (parse.go lines 340-395); `none`
is the out-of-range panic. -/
def DebugParseAndAnalyzeBuffer (year : Nat) (buffer : List Nat) :
    Option (List LogLine × List Unit) :=
  match debugScan year (splitBuf buffer).1 ⟨[], 0, 0⟩ with
  | none => none
  | some st => some (AnalyzeLogLines st.lls)

/-- A LogLine with its fresh-identifier field cleared: two scans of the same
data agree on everything but the identifiers, which are freshly generated on
every call. -/
def sansUuid (l : LogLine) : LogLine := { l with uuid := 0 }

/-- Modelled from the spec: using a supplied prefix's grammar directly,
with no auto-detection (spec 4.2: "If a prefix hint is supplied, that grammar
is used directly (no detection)"). -/
def parseWithGivenGrammar (pfx line : List Nat) : LogLine × Bool :=
  dispatchPfx pfx line

/-! ## Theorems: general lemmas about the embedding, then the claims -/

theorem finishParse_ok_then {fmt : TimeFmt} {alt : Option TimeFmt} {base : LogLine}
    {tp up dp ap pp lv cp : List Nat} {ll : LogLine}
    (h : finishParse fmt alt base tp up dp ap pp lv cp = (ll, true)) :
    lv ≠ [] ∧ goTimeParse2 fmt alt tp = some ll.occurredAt ∧
      ll.logLevel = (logLevelValue lv).getD 0 := by
  unfold finishParse at h
  cases hgt : goTimeParse2 fmt alt tp with
  | none => rw [hgt] at h; cases h
  | some t =>
    rw [hgt] at h
    by_cases hlv : lv = []
    · simp [hlv] at h
    · simp only [if_neg hlv] at h
      cases h
      exact ⟨hlv, rfl, rfl⟩

theorem pair_false_ne_true {ll ll' : LogLine} (h : (ll', false) = (ll, true)) : False := by
  have := congrArg Prod.snd h
  simp at this

theorem dispatch_shape (p line : List Nat) (ll : LogLine)
    (h : dispatchPfx p line = (ll, true)) :
    ∃ fmt alt tp lv, lv ≠ [] ∧ goTimeParse2 fmt alt tp = some ll.occurredAt ∧
      ll.logLevel = (logLevelValue lv).getD 0 := by
  unfold dispatchPfx at h
  repeat' split at h
  all_goals first
    | exact absurd h (fun hh => pair_false_ne_true hh)
    | exact ⟨_, _, _, _, finishParse_ok_then h⟩

theorem rsyslog_shape (year : Nat) (line : List Nat) (ll : LogLine)
    (h : parseRsyslogLine year line = (ll, true)) :
    ∃ fmt alt tp lv, lv ≠ [] ∧ goTimeParse2 fmt alt tp = some ll.occurredAt ∧
      ll.logLevel = (logLevelValue lv).getD 0 := by
  unfold parseRsyslogLine at h
  cases hf : reFind RsyslogRegexp line with
  | none => rw [hf] at h; exact absurd h (fun hh => pair_false_ne_true hh)
  | some parts =>
    rw [hf] at h
    cases h2 : reFind LogPrefixNoTimestampUserDatabaseAppRegexp (replace011 (part parts 7)) with
    | none =>
      simp only [h2] at h
      exact ⟨_, _, _, _, finishParse_ok_then h⟩
    | some parts2 =>
      simp only [h2] at h
      exact ⟨_, _, _, _, finishParse_ok_then h⟩

theorem parse_ok_shape (year : Nat) (pfx line : List Nat) (ll : LogLine)
    (h : ParseLogLineWithPrefix year pfx line = (ll, true)) :
    ∃ fmt alt tp lv, lv ≠ [] ∧ goTimeParse2 fmt alt tp = some ll.occurredAt ∧
      ll.logLevel = (logLevelValue lv).getD 0 := by
  unfold ParseLogLineWithPrefix at h
  by_cases hd : (if pfx = [] then detectPfx line else (pfx, false)).2 = true
  · rw [if_pos hd] at h
    exact rsyslog_shape _ _ _ h
  · rw [if_neg hd] at h
    exact dispatch_shape _ _ _ h


theorem scanStep_not_ok (year : Nat) (cutoff : GoTime) (st : ScanSt) (line : List Nat)
    (h : (ParseLogLineWithPrefix year [] line).2 = false) :
    scanStep year cutoff st line =
      if st.lls ≠ [] ∧ (ParseLogLineWithPrefix year [] line).1.content ≠ [] then
        { st with lls := appendToLast st.lls (ParseLogLineWithPrefix year [] line).1.content,
                  off := st.off + (line.length : Int) }
      else { st with off := st.off + (line.length : Int) } := by
  unfold scanStep
  simp only [h]
  rw [if_pos trivial]

theorem scanStep_filtered (year : Nat) (cutoff : GoTime) (st : ScanSt) (line : List Nat)
    (h : (ParseLogLineWithPrefix year [] line).2 = true)
    (hb : GoTime.Before (ParseLogLineWithPrefix year [] line).1.occurredAt cutoff = true) :
    scanStep year cutoff st line = { st with off := st.off + (line.length : Int) } := by
  unfold scanStep
  simp only [h, hb]
  simp

theorem scanStep_emit (year : Nat) (cutoff : GoTime) (st : ScanSt) (line : List Nat)
    (h : (ParseLogLineWithPrefix year [] line).2 = true)
    (hb : GoTime.Before (ParseLogLineWithPrefix year [] line).1.occurredAt cutoff = false) :
    scanStep year cutoff st line =
      { lls := st.lls ++ [{ (ParseLogLineWithPrefix year [] line).1 with
          byteStart := st.off,
          byteContentStart := st.off + (line.length : Int) -
            ((ParseLogLineWithPrefix year [] line).1.content.length : Int),
          byteEnd := st.off + (line.length : Int) - 1,
          uuid := st.ctr }],
        ctr := st.ctr + 1,
        off := st.off + (line.length : Int) } := by
  unfold scanStep
  simp only [h, hb]
  simp

theorem exists_concat_of_ne_nil {α : Type} (ls : List α) (h : ls ≠ []) :
    ∃ L l, ls = L ++ [l] := by
  rcases List.eq_nil_or_concat ls with rfl | ⟨L, l, rfl⟩
  · exact absurd rfl h
  · exact ⟨L, l, List.concat_eq_append L l⟩

theorem appendToLast_concat (L : List LogLine) (l : LogLine) (c : List Nat) :
    appendToLast (L ++ [l]) c =
      L ++ [{ l with content := l.content ++ c, byteEnd := l.byteEnd + (c.length : Int) }] := by
  induction L with
  | nil => rfl
  | cons x L ih =>
    cases L with
    | nil => rfl
    | cons y L' =>
      simp only [List.cons_append, List.append_eq, appendToLast] at ih ⊢
      rw [ih]

theorem appendToLast_append (ls1 ls2 : List LogLine) (c : List Nat) (h : ls2 ≠ []) :
    appendToLast (ls1 ++ ls2) c = ls1 ++ appendToLast ls2 c := by
  obtain ⟨L, l, rfl⟩ := exists_concat_of_ne_nil ls2 h
  rw [← List.append_assoc, appendToLast_concat, appendToLast_concat, List.append_assoc]

theorem map_sansUuid_appendToLast (ls : List LogLine) (c : List Nat) :
    (appendToLast ls c).map sansUuid = appendToLast (ls.map sansUuid) c := by
  by_cases h : ls = []
  · subst h; rfl
  · obtain ⟨L, l, rfl⟩ := exists_concat_of_ne_nil ls h
    rw [appendToLast_concat]
    simp only [List.map_append, List.map_cons, List.map_nil]
    rw [appendToLast_concat]
    rfl

theorem appendToLast_ne_nil (ls : List LogLine) (c : List Nat) (h : ls ≠ []) :
    appendToLast ls c ≠ [] := by
  obtain ⟨L, l, rfl⟩ := exists_concat_of_ne_nil ls h
  rw [appendToLast_concat]
  simp


theorem scanStep_off (year : Nat) (cutoff : GoTime) (st : ScanSt) (line : List Nat) :
    (scanStep year cutoff st line).off = st.off + (line.length : Int) := by
  simp only [scanStep]
  repeat' split
  all_goals rfl

theorem foldl_scan_off (year : Nat) (cutoff : GoTime) :
    ∀ (ls : List (List Nat)) (st : ScanSt),
      (ls.foldl (scanStep year cutoff) st).off = st.off + ((ls.map List.length).sum : Int) := by
  intro ls
  induction ls with
  | nil => intro st; simp
  | cons l ls ih =>
    intro st
    simp only [List.foldl_cons, List.map_cons, List.sum_cons]
    rw [ih, scanStep_off]
    push_cast
    omega

theorem splitBufAux_len :
    ∀ (rest acc : List Nat),
      (((splitBufAux acc rest).1.map List.length).sum + (splitBufAux acc rest).2.length)
        = acc.length + rest.length := by
  intro rest
  induction rest with
  | nil => intro acc; simp [splitBufAux]
  | cons c cs ih =>
    intro acc
    by_cases hc : c = 10
    · subst hc
      have h1 := ih []
      have e : splitBufAux acc (10 :: cs)
          = ((acc.reverse ++ [10]) :: (splitBufAux [] cs).1, (splitBufAux [] cs).2) := by
        simp [splitBufAux]
      rw [e]
      simp only [List.map_cons, List.sum_cons, List.length_append, List.length_reverse,
        List.length_cons, List.length_nil]
      simp only [List.length_nil] at h1
      omega
    · have h1 := ih (c :: acc)
      have e : splitBufAux acc (c :: cs) = splitBufAux (c :: acc) cs := by
        simp [splitBufAux, hc]
      rw [e]
      simp only [List.length_cons] at h1 ⊢
      omega

theorem splitBuf_len (b : List Nat) :
    ((splitBuf b).1.map List.length).sum + (splitBuf b).2.length = b.length := by
  have := splitBufAux_len b []
  simpa [splitBuf] using this


theorem map_byteStart_appendToLast (ls : List LogLine) (c : List Nat) :
    (appendToLast ls c).map LogLine.byteStart = ls.map LogLine.byteStart := by
  by_cases h : ls = []
  · subst h; rfl
  · obtain ⟨L, l, rfl⟩ := exists_concat_of_ne_nil ls h
    rw [appendToLast_concat]
    simp

theorem scanStep_byteStarts (year : Nat) (cutoff : GoTime) (st : ScanSt) (line : List Nat) :
    (scanStep year cutoff st line).lls.map LogLine.byteStart = st.lls.map LogLine.byteStart ∨
    (scanStep year cutoff st line).lls.map LogLine.byteStart
      = st.lls.map LogLine.byteStart ++ [st.off] := by
  simp only [scanStep]
  repeat' split
  · left
    exact map_byteStart_appendToLast st.lls _
  · left; rfl
  · left; rfl
  · right
    simp

theorem foldl_scan_inv (year : Nat) (cutoff : GoTime) :
    ∀ (ls : List (List Nat)) (st : ScanSt),
      List.Pairwise (· ≤ ·) (st.lls.map LogLine.byteStart) →
      (∀ b ∈ st.lls.map LogLine.byteStart, b ≤ st.off) →
      List.Pairwise (· ≤ ·) ((ls.foldl (scanStep year cutoff) st).lls.map LogLine.byteStart) ∧
      (∀ b ∈ (ls.foldl (scanStep year cutoff) st).lls.map LogLine.byteStart,
        b ≤ (ls.foldl (scanStep year cutoff) st).off) := by
  intro ls
  induction ls with
  | nil => intro st h1 h2; exact ⟨h1, h2⟩
  | cons l ls ih =>
    intro st h1 h2
    simp only [List.foldl_cons]
    have hoff : st.off ≤ (scanStep year cutoff st l).off := by
      rw [scanStep_off]
      have : (0 : Int) ≤ (l.length : Int) := Int.ofNat_nonneg l.length
      omega
    have step : List.Pairwise (· ≤ ·) ((scanStep year cutoff st l).lls.map LogLine.byteStart) ∧
        (∀ b ∈ (scanStep year cutoff st l).lls.map LogLine.byteStart,
          b ≤ (scanStep year cutoff st l).off) := by
      rcases scanStep_byteStarts year cutoff st l with he | he
      · rw [he]
        exact ⟨h1, fun b hb => Int.le_trans (h2 b hb) hoff⟩
      · rw [he]
        constructor
        · rw [List.pairwise_append]
          refine ⟨h1, List.pairwise_singleton _ _, ?_⟩
          intro a ha b hb
          rw [List.mem_singleton] at hb
          subst hb
          exact h2 a ha
        · intro b hb
          rw [List.mem_append, List.mem_singleton] at hb
          rcases hb with hb | rfl
          · exact Int.le_trans (h2 b hb) hoff
          · exact hoff
    exact ih _ step.1 step.2




theorem parse_with_nonempty (year : Nat) (p line : List Nat) (hp : p ≠ []) :
    ParseLogLineWithPrefix year p line = dispatchPfx p line := by
  unfold ParseLogLineWithPrefix
  rw [if_neg hp]
  simp

theorem parse_empty (year : Nat) (line : List Nat) :
    ParseLogLineWithPrefix year [] line =
      (if (detectPfx line).2 = true then parseRsyslogLine year line
       else dispatchPfx (detectPfx line).1 line) := by
  unfold ParseLogLineWithPrefix
  rw [if_pos rfl]

/-- Claim C2: ParseAndAnalyzeBuffer advances its running offset by each raw
line's byte length regardless of parse outcome (first conjunct, covering every
branch of the loop body), returns a running offset equal to the initial offset
plus the total byte length of the buffer — so a truncated final line without a
newline has its bytes counted as consumed, and the returned offset is the
byte_start of the hypothetical next line — and the byte_start values of the
emitted records are monotonically non-decreasing across the output sequence. -/
theorem claim_C2 (year : Nat) (buffer : List Nat) (o : Int) (cutoff : GoTime) :
    (∀ (st : ScanSt) (line : List Nat),
      (scanStep year cutoff st line).off = st.off + (line.length : Int)) ∧
    (ParseAndAnalyzeBuffer year buffer o cutoff).2.2 = o + (buffer.length : Int) ∧
    List.Pairwise (fun a b => a.byteStart ≤ b.byteStart)
      (ParseAndAnalyzeBuffer year buffer o cutoff).1 := by
  refine ⟨scanStep_off year cutoff, ?_, ?_⟩
  · show (ParseAndAnalyzeBuffer year buffer o cutoff).2.2 = o + (buffer.length : Int)
    simp only [ParseAndAnalyzeBuffer, AnalyzeLogLines]
    rw [foldl_scan_off]
    have hl := splitBuf_len buffer
    have ho : ({ lls := [], ctr := 0, off := o } : ScanSt).off = o := rfl
    rw [ho]
    omega
  · show List.Pairwise _ (ParseAndAnalyzeBuffer year buffer o cutoff).1
    simp only [ParseAndAnalyzeBuffer, AnalyzeLogLines]
    have h := foldl_scan_inv year cutoff (splitBuf buffer).1 ⟨[], 0, o⟩
      (by simp) (by simp)
    have := h.1
    rwa [List.pairwise_map] at this

/-- Claim C3: when a line fails to parse and at least one LogLine has been
emitted, the scan loop appends the failed line's non-empty content to the last
emitted record's content and grows that record's byte_end by exactly the
appended length, leaving every other field (occurred_at, log_level, uuid,
byte_start, byte_content_start, and the identity fields) unchanged — visible
in the structure-update form of the conclusion; with no emitted record the
failed line is dropped; and concretely a header line followed by two
unparseable lines yields the single header record with both bodies appended in
order and byte_end grown by their summed length. -/
theorem claim_C3 :
    (∀ (year : Nat) (cutoff : GoTime) (st : ScanSt) (line : List Nat) (L : List LogLine)
        (l : LogLine),
      (ParseLogLineWithPrefix year [] line).2 = false →
      st.lls = L ++ [l] →
      (ParseLogLineWithPrefix year [] line).1.content ≠ [] →
      scanStep year cutoff st line =
        { st with
          lls := L ++ [{ l with
            content := l.content ++ (ParseLogLineWithPrefix year [] line).1.content,
            byteEnd := l.byteEnd +
              (((ParseLogLineWithPrefix year [] line).1.content.length : Int)) }],
          off := st.off + (line.length : Int) }) ∧
    (∀ (year : Nat) (cutoff : GoTime) (st : ScanSt) (line : List Nat),
      (ParseLogLineWithPrefix year [] line).2 = false →
      st.lls = [] →
      scanStep year cutoff st line = { st with off := st.off + (line.length : Int) }) ∧
    ((ParseAndAnalyzeBuffer 2026 (str "2021-01-02 03:04:05 +0000 [1] LOG:  x\nab\ncd\n")
        0 goZeroTime).1 =
      [{ ((ParseAndAnalyzeBuffer 2026 (str "2021-01-02 03:04:05 +0000 [1] LOG:  x\n")
            0 goZeroTime).1.getD 0 {}) with
        content := ((ParseAndAnalyzeBuffer 2026
            (str "2021-01-02 03:04:05 +0000 [1] LOG:  x\n") 0 goZeroTime).1.getD 0 {}).content
          ++ str "ab\n" ++ str "cd\n",
        byteEnd := ((ParseAndAnalyzeBuffer 2026
            (str "2021-01-02 03:04:05 +0000 [1] LOG:  x\n") 0 goZeroTime).1.getD 0 {}).byteEnd
          + (((str "ab\n").length : Int) + ((str "cd\n").length : Int)) }]) := by
  refine ⟨?_, ?_, ?_⟩
  · intro year cutoff st line L l hfail hlls hcont
    rw [scanStep_not_ok year cutoff st line hfail,
      if_pos ⟨by rw [hlls]; simp, hcont⟩, hlls, appendToLast_concat]
  · intro year cutoff st line hfail hlls
    rw [scanStep_not_ok year cutoff st line hfail, if_neg]
    rintro ⟨hne, -⟩
    exact hne hlls
  · decide!

/-- Claim C6: a successfully parsed line whose occurred_at is strictly before
the cutoff is discarded by the scan loop with no change to the emitted
sequence (so it never becomes a continuation target); concretely, in a buffer
header/old-line/junk the junk line attaches to the header record, and with the
old line first and no emitted record the junk is dropped and the output is
empty. -/
theorem claim_C6 :
    (∀ (year : Nat) (cutoff : GoTime) (st : ScanSt) (line : List Nat),
      (ParseLogLineWithPrefix year [] line).2 = true →
      GoTime.Before (ParseLogLineWithPrefix year [] line).1.occurredAt cutoff = true →
      scanStep year cutoff st line = { st with off := st.off + (line.length : Int) }) ∧
    ((ParseLogLineWithPrefix 2026 []
        (str "2000-01-01 00:00:00 +0000 [1] LOG:  old\n")).2 = true ∧
     GoTime.Before (ParseLogLineWithPrefix 2026 []
        (str "2000-01-01 00:00:00 +0000 [1] LOG:  old\n")).1.occurredAt
        ⟨civilSec 2021 1 1 0 0 0, 0⟩ = true ∧
     (ParseAndAnalyzeBuffer 2026
        (str "2021-06-01 00:00:00 +0000 [1] LOG:  a\n2000-01-01 00:00:00 +0000 [1] LOG:  old\njunk\n")
        0 ⟨civilSec 2021 1 1 0 0 0, 0⟩).1 =
      [{ ((ParseAndAnalyzeBuffer 2026 (str "2021-06-01 00:00:00 +0000 [1] LOG:  a\n")
            0 ⟨civilSec 2021 1 1 0 0 0, 0⟩).1.getD 0 {}) with
        content := ((ParseAndAnalyzeBuffer 2026
            (str "2021-06-01 00:00:00 +0000 [1] LOG:  a\n")
            0 ⟨civilSec 2021 1 1 0 0 0, 0⟩).1.getD 0 {}).content ++ str "junk\n",
        byteEnd := ((ParseAndAnalyzeBuffer 2026
            (str "2021-06-01 00:00:00 +0000 [1] LOG:  a\n")
            0 ⟨civilSec 2021 1 1 0 0 0, 0⟩).1.getD 0 {}).byteEnd
          + ((str "junk\n").length : Int) }] ∧
     (ParseAndAnalyzeBuffer 2026
        (str "2000-01-01 00:00:00 +0000 [1] LOG:  old\njunk\n")
        0 ⟨civilSec 2021 1 1 0 0 0, 0⟩).1 = []) := by
  refine ⟨?_, ?_⟩
  · intro year cutoff st line hok hb
    exact scanStep_filtered year cutoff st line hok hb
  · decide!

/-- Claim C7: a line whose extracted timestamp fails to parse under every
applicable layout makes finishParse — the shared tail of every grammar branch
of ParseLogLineWithPrefix — return ok = false (first conjunct), and every
ok = false line is routed by ParseAndAnalyzeBuffer along the same continuation
path as a line no grammar matched (second conjunct: the scan step is the
continuation-stitcher step whenever ok = false). Concretely, a line matching
custom format 4's grammar with month 13 fails both time layouts, returns
ok = false with empty content, and adds no record to the scan of a buffer
containing it. -/
theorem claim_C7 :
    (∀ (fmt : TimeFmt) (alt : Option TimeFmt) (base : LogLine)
        (tp up dp ap pp lv cp : List Nat),
      goTimeParse2 fmt alt tp = none →
      finishParse fmt alt base tp up dp ap pp lv cp = (base, false)) ∧
    (∀ (year : Nat) (cutoff : GoTime) (st : ScanSt) (line : List Nat),
      (ParseLogLineWithPrefix year [] line).2 = false →
      scanStep year cutoff st line =
        if st.lls ≠ [] ∧ (ParseLogLineWithPrefix year [] line).1.content ≠ [] then
          { st with lls := appendToLast st.lls (ParseLogLineWithPrefix year [] line).1.content,
                    off := st.off + (line.length : Int) }
        else { st with off := st.off + (line.length : Int) }) ∧
    (reMatch LogPrefixCustom4Regexp (str "2020-13-01 00:00:00 UTC [1] LOG:  x\n") = true ∧
     goTimeParse2 .pgDefault (some .pgNamedZone) (str "2020-13-01 00:00:00 UTC") = none ∧
     ParseLogLineWithPrefix 2026 [] (str "2020-13-01 00:00:00 UTC [1] LOG:  x\n")
       = ({}, false) ∧
     (ParseAndAnalyzeBuffer 2026
        (str "2021-01-02 03:04:05 +0000 [1] LOG:  x\n2020-13-01 00:00:00 UTC [1] LOG:  x\n")
        0 goZeroTime).1.map sansUuid =
      (ParseAndAnalyzeBuffer 2026 (str "2021-01-02 03:04:05 +0000 [1] LOG:  x\n")
        0 goZeroTime).1.map sansUuid) := by
  refine ⟨?_, ?_, ?_⟩
  · intro fmt alt base tp up dp ap pp lv cp h
    unfold finishParse
    rw [h]
  · intro year cutoff st line h
    exact scanStep_not_ok year cutoff st line h
  · decide!

/-- Claim C4 (amended): every LogLine that ParseLogLineWithPrefix returns with
ok = true was produced from a non-empty level-name token and a timestamp text
that parses successfully under the applicable layouts (its occurred_at is the
parsed value, its log_level the table lookup with Go's zero value 0 for a
missing key); but — correcting the original claim — a non-empty level name
that is not in the level table is still treated as a new record, emitted with
log_level 0, as the concrete conjunct shows. Only an empty level name makes
the line a non-record. -/
theorem claim_C4 :
    (∀ (year : Nat) (pfx line : List Nat) (ll : LogLine),
      ParseLogLineWithPrefix year pfx line = (ll, true) →
      ∃ fmt alt tp lv, lv ≠ [] ∧ goTimeParse2 fmt alt tp = some ll.occurredAt ∧
        ll.logLevel = (logLevelValue lv).getD 0) ∧
    (logLevelValue (str "foo") = none ∧
     ParseLogLineWithPrefix 2026 [] (str "2021-01-02 03:04:05 UTC [1] foo:  x\n") =
       ({ occurredAt := ⟨civilSec 2021 1 2 3 4 5, 0⟩, backendPid := 1, logLevel := 0,
          content := str "x\n" }, true)) := by
  refine ⟨parse_ok_shape, ?_⟩
  decide!

/-- Claim C4, counterexample to the original statement: "foo" is not in the
level-name table, yet ParseLogLineWithPrefix returns ok = true for a line with
level token "foo" (the original claim required ok = false for unrecognized
names). -/
theorem claim_C4_counterexample :
    logLevelValue (str "foo") = none ∧
    (ParseLogLineWithPrefix 2026 [] (str "2021-01-02 03:04:05 UTC [1] foo:  x\n")).2
      = true := by
  decide!

/-- Claim C8 (amended): a non-empty prefix hint from the supported-prefix
catalog is used directly — the parse equals the direct use of that grammar
with no auto-detection — and for every line for which auto-detection selects a
prefix, an explicit call with that prefix yields the identical LogLine output.
(Correcting the original claim: the empty prefix LogPrefixEmpty does not
bypass detection — supplying it is precisely what triggers auto-detection; see
the counterexample.) -/
theorem claim_C8 :
    (∀ (year : Nat) (p line : List Nat), p ∈ SupportedPrefixes → p ≠ [] →
      ParseLogLineWithPrefix year p line = parseWithGivenGrammar p line) ∧
    (∀ (year : Nat) (line p : List Nat), p ≠ [] → detectPfx line = (p, false) →
      ParseLogLineWithPrefix year [] line = ParseLogLineWithPrefix year p line) := by
  constructor
  · intro year p line hmem hp
    rw [parse_with_nonempty year p line hp]
    rfl
  · intro year line p hp hdet
    rw [parse_empty, hdet, parse_with_nonempty year p line hp]
    simp

/-- Claim C8, counterexample to the original statement: LogPrefixEmpty is in
the supported-prefix catalog, yet supplying it does not use "the empty
grammar" directly: on an Amazon RDS line the result differs from the
no-detection dispatch (detection selects the RDS grammar and parses the
line). -/
theorem claim_C8_counterexample :
    LogPrefixEmpty ∈ SupportedPrefixes ∧
    ParseLogLineWithPrefix 2026 LogPrefixEmpty
        (str "2021-01-02 03:04:05 UTC:1.2.3.4(5):u@d:[9]:LOG:  y\n")
      ≠ parseWithGivenGrammar LogPrefixEmpty
        (str "2021-01-02 03:04:05 UTC:1.2.3.4(5):u@d:[9]:LOG:  y\n") := by
  decide!

/-- Claim C5: with no prefix hint the grammars are tried in the fixed source
order (Amazon RDS, custom 1, custom 2, then custom 4 before custom 3, ...) and
the first match wins: if RDS/custom-1/custom-2 fail and custom 4 matches, the
line is parsed exactly as with an explicit custom-4 prefix even when custom 3
also matches; if custom 4 also fails and custom 3 matches, custom 3 is used.
The concrete conjunct exhibits a line matching both grammars that is
classified as custom format 4 (application "c", not custom 3's
"c,host=d"). -/
theorem claim_C5 :
    (∀ (year : Nat) (line : List Nat),
      reMatch LogPrefixAmazonRdsRegxp line = false →
      reMatch LogPrefixCustom1Regexp line = false →
      reMatch LogPrefixCustom2Regexp line = false →
      reMatch LogPrefixCustom4Regexp line = true →
      ParseLogLineWithPrefix year [] line = ParseLogLineWithPrefix year LogPrefixCustom4 line) ∧
    (∀ (year : Nat) (line : List Nat),
      reMatch LogPrefixAmazonRdsRegxp line = false →
      reMatch LogPrefixCustom1Regexp line = false →
      reMatch LogPrefixCustom2Regexp line = false →
      reMatch LogPrefixCustom4Regexp line = false →
      reMatch LogPrefixCustom3Regexp line = true →
      ParseLogLineWithPrefix year [] line = ParseLogLineWithPrefix year LogPrefixCustom3 line) ∧
    (reMatch LogPrefixCustom3Regexp
        (str "2020-01-02 03:04:05 UTC [1] [user=a,db=b,app=c,host=d] LOG:  x\n") = true ∧
     reMatch LogPrefixCustom4Regexp
        (str "2020-01-02 03:04:05 UTC [1] [user=a,db=b,app=c,host=d] LOG:  x\n") = true ∧
     ParseLogLineWithPrefix 2026 []
        (str "2020-01-02 03:04:05 UTC [1] [user=a,db=b,app=c,host=d] LOG:  x\n") =
      ParseLogLineWithPrefix 2026 LogPrefixCustom4
        (str "2020-01-02 03:04:05 UTC [1] [user=a,db=b,app=c,host=d] LOG:  x\n") ∧
     (ParseLogLineWithPrefix 2026 []
        (str "2020-01-02 03:04:05 UTC [1] [user=a,db=b,app=c,host=d] LOG:  x\n")).1.application
       = str "c" ∧
     (ParseLogLineWithPrefix 2026 LogPrefixCustom3
        (str "2020-01-02 03:04:05 UTC [1] [user=a,db=b,app=c,host=d] LOG:  x\n")).1.application
       = str "c,host=d") := by
  refine ⟨?_, ?_, ?_⟩
  · intro year line h1 h2 h3 h4
    have hd : detectPfx line = (LogPrefixCustom4, false) := by
      unfold detectPfx
      rw [if_neg (by simp [h1]), if_neg (by simp [h2]), if_neg (by simp [h3]),
        if_pos (by simp [h4])]
    rw [parse_empty, hd, parse_with_nonempty year LogPrefixCustom4 line (by decide!)]
    simp
  · intro year line h1 h2 h3 h4 h5
    have hd : detectPfx line = (LogPrefixCustom3, false) := by
      unfold detectPfx
      rw [if_neg (by simp [h1]), if_neg (by simp [h2]), if_neg (by simp [h3]),
        if_neg (by simp [h4]), if_pos (by simp [h5])]
    rw [parse_empty, hd, parse_with_nonempty year LogPrefixCustom3 line (by decide!)]
    simp
  · decide!


theorem splitBufAux_append (A : List Nat) :
    ∀ (acc B : List Nat), A.getLast? = some 10 →
      splitBufAux acc (A ++ B) =
        ((splitBufAux acc A).1 ++ (splitBuf B).1, (splitBuf B).2) := by
  induction A with
  | nil => intro acc B h; simp at h
  | cons c A ih =>
    intro acc B h
    cases A with
    | nil =>
      have hc : c = 10 := by simpa using h
      subst hc
      simp [splitBufAux, splitBuf]
    | cons a A' =>
      have h' : (a :: A').getLast? = some 10 := by
        rwa [List.getLast?_cons_cons] at h
      by_cases hc : c = 10
      · subst hc
        have e1 : splitBufAux acc ((10 :: a :: A') ++ B)
            = ((acc.reverse ++ [10]) :: (splitBufAux [] ((a :: A') ++ B)).1,
               (splitBufAux [] ((a :: A') ++ B)).2) := by
          simp [splitBufAux]
        have e2 : splitBufAux acc (10 :: a :: A')
            = ((acc.reverse ++ [10]) :: (splitBufAux [] (a :: A')).1,
               (splitBufAux [] (a :: A')).2) := by
          simp [splitBufAux]
        rw [e1, e2, ih [] B h']
        simp
      · have e1 : splitBufAux acc ((c :: a :: A') ++ B)
            = splitBufAux (c :: acc) ((a :: A') ++ B) := by
          simp [splitBufAux, hc]
        have e2 : splitBufAux acc (c :: a :: A') = splitBufAux (c :: acc) (a :: A') := by
          simp [splitBufAux, hc]
        rw [e1, e2, ih (c :: acc) B h']

theorem splitBuf_append (A B : List Nat) (h : A.getLast? = some 10) :
    splitBuf (A ++ B) = ((splitBuf A).1 ++ (splitBuf B).1, (splitBuf B).2) :=
  splitBufAux_append A [] B h

theorem splitBuf_tail_nil (A : List Nat) (h : A.getLast? = some 10) :
    (splitBuf A).2 = [] := by
  have h2 := congrArg Prod.snd (splitBuf_append A [] h)
  simpa using h2

theorem map_sansUuid_ne_nil {ls : List LogLine} (h : ls ≠ []) :
    ls.map sansUuid ≠ [] := by
  simpa using h

theorem scanStep_shift (year : Nat) (cutoff : GoTime) (l : List Nat) (P : List LogLine)
    (s1 s2 : ScanSt) (h2 : s2.lls ≠ []) (hoff : s1.off = s2.off)
    (hm : s1.lls.map sansUuid = P.map sansUuid ++ s2.lls.map sansUuid) :
    (scanStep year cutoff s1 l).lls.map sansUuid
      = P.map sansUuid ++ (scanStep year cutoff s2 l).lls.map sansUuid ∧
    (scanStep year cutoff s1 l).off = (scanStep year cutoff s2 l).off ∧
    (scanStep year cutoff s2 l).lls ≠ [] := by
  have h1 : s1.lls ≠ [] := by
    intro hnil
    rw [hnil] at hm
    simp only [List.map_nil] at hm
    have := map_sansUuid_ne_nil h2
    rcases List.append_eq_nil.mp hm.symm with ⟨-, hq⟩
    exact this hq
  cases hok : (ParseLogLineWithPrefix year [] l).2 with
  | false =>
    rw [scanStep_not_ok year cutoff s1 l hok, scanStep_not_ok year cutoff s2 l hok]
    by_cases hc : (ParseLogLineWithPrefix year [] l).1.content = []
    · rw [if_neg (by rintro ⟨-, hb⟩; exact hb hc), if_neg (by rintro ⟨-, hb⟩; exact hb hc)]
      exact ⟨hm, by rw [hoff], h2⟩
    · rw [if_pos ⟨h1, hc⟩, if_pos ⟨h2, hc⟩]
      refine ⟨?_, by rw [hoff], appendToLast_ne_nil _ _ h2⟩
      show (appendToLast s1.lls _).map sansUuid = _ ++ (appendToLast s2.lls _).map sansUuid
      rw [map_sansUuid_appendToLast, map_sansUuid_appendToLast, hm,
        appendToLast_append _ _ _ (map_sansUuid_ne_nil h2)]
  | true =>
    cases hb : GoTime.Before (ParseLogLineWithPrefix year [] l).1.occurredAt cutoff with
    | true =>
      rw [scanStep_filtered year cutoff s1 l hok hb, scanStep_filtered year cutoff s2 l hok hb]
      exact ⟨hm, by rw [hoff], h2⟩
    | false =>
      rw [scanStep_emit year cutoff s1 l hok hb, scanStep_emit year cutoff s2 l hok hb]
      refine ⟨?_, by rw [hoff], by simp⟩
      simp only [List.map_append, List.map_cons, List.map_nil, hm]
      rw [List.append_assoc]
      congr 2
      simp [sansUuid, hoff]

theorem foldl_scan_shift (year : Nat) (cutoff : GoTime) :
    ∀ (ls : List (List Nat)) (P : List LogLine) (s1 s2 : ScanSt),
      s2.lls ≠ [] → s1.off = s2.off →
      s1.lls.map sansUuid = P.map sansUuid ++ s2.lls.map sansUuid →
      (ls.foldl (scanStep year cutoff) s1).lls.map sansUuid
        = P.map sansUuid ++ (ls.foldl (scanStep year cutoff) s2).lls.map sansUuid ∧
      (ls.foldl (scanStep year cutoff) s1).off
        = (ls.foldl (scanStep year cutoff) s2).off := by
  intro ls
  induction ls with
  | nil => intro P s1 s2 h2 hoff hm; exact ⟨hm, hoff⟩
  | cons l ls ih =>
    intro P s1 s2 h2 hoff hm
    simp only [List.foldl_cons]
    obtain ⟨hm', hoff', h2'⟩ := scanStep_shift year cutoff l P s1 s2 h2 hoff hm
    exact ih P _ _ h2' hoff' hm'


/-- Claim C1 (amended): splitting a buffer at a line boundary and feeding the two
pieces as successive calls to ParseAndAnalyzeBuffer with the returned running
offset (time filter disabled, i.e. a zero cutoff) yields, provided the first
complete line of the second piece parses as a new record and is emitted, the
same LogLine sequence as a single call on the whole buffer — identical up to
the freshly generated UUIDs, so in particular all byte offsets (byte_start,
byte_content_start, byte_end) of corresponding records match — and the same
final running offset. (The original claim, with no proviso on the second
piece, fails when the second piece begins with a continuation line; see the
counterexample.) -/
theorem claim_C1 (year : Nat) (A B : List Nat) (o : Int) (l0 : List Nat)
    (rest : List (List Nat)) (hA : A.getLast? = some 10)
    (hB : (splitBuf B).1 = l0 :: rest)
    (hok : (ParseLogLineWithPrefix year [] l0).2 = true)
    (hnb : GoTime.Before (ParseLogLineWithPrefix year [] l0).1.occurredAt goZeroTime
      = false) :
    (ParseAndAnalyzeBuffer year (A ++ B) o goZeroTime).1.map sansUuid =
      ((ParseAndAnalyzeBuffer year A o goZeroTime).1 ++
       (ParseAndAnalyzeBuffer year B
         (ParseAndAnalyzeBuffer year A o goZeroTime).2.2 goZeroTime).1).map sansUuid ∧
    (ParseAndAnalyzeBuffer year (A ++ B) o goZeroTime).2.2 =
      (ParseAndAnalyzeBuffer year B
        (ParseAndAnalyzeBuffer year A o goZeroTime).2.2 goZeroTime).2.2 := by
  have htail := splitBuf_tail_nil A hA
  have hsplit := splitBuf_append A B hA
  -- the state after scanning A's lines from the initial state
  set stA := (splitBuf A).1.foldl (scanStep year goZeroTime) ⟨[], 0, o⟩ with hstA
  have hPA : ParseAndAnalyzeBuffer year A o goZeroTime = (stA.lls, [], stA.off) := by
    simp only [ParseAndAnalyzeBuffer, AnalyzeLogLines, htail, ← hstA]
    simp
  -- the offset handed to the second call is exactly stA.off
  have hoffA : (ParseAndAnalyzeBuffer year A o goZeroTime).2.2 = stA.off := by
    rw [hPA]
  -- the whole-buffer fold splits into A's lines then B's lines
  have hfold : (splitBuf (A ++ B)).1.foldl (scanStep year goZeroTime) ⟨[], 0, o⟩
      = (splitBuf B).1.foldl (scanStep year goZeroTime) stA := by
    rw [hsplit]
    simp only []
    rw [List.foldl_append, ← hstA]
  -- after the first line of B, the two runs are related
  set s1 := scanStep year goZeroTime stA l0 with hs1
  set s2 := scanStep year goZeroTime ⟨[], 0, stA.off⟩ l0 with hs2
  have hs1e := scanStep_emit year goZeroTime stA l0 hok hnb
  have hs2e := scanStep_emit year goZeroTime ⟨[], 0, stA.off⟩ l0 hok hnb
  have hrel : s1.lls.map sansUuid = stA.lls.map sansUuid ++ s2.lls.map sansUuid := by
    rw [hs1, hs2, hs1e, hs2e]
    simp [sansUuid]
  have hoff12 : s1.off = s2.off := by
    rw [hs1, hs2, scanStep_off, scanStep_off]
  have h2ne : s2.lls ≠ [] := by
    rw [hs2, hs2e]
    simp
  have hshift := foldl_scan_shift year goZeroTime rest stA.lls s1 s2 h2ne hoff12 hrel
  -- assemble
  have hwhole : ParseAndAnalyzeBuffer year (A ++ B) o goZeroTime
      = ((rest.foldl (scanStep year goZeroTime) s1).lls, [],
         (rest.foldl (scanStep year goZeroTime) s1).off + ((splitBuf B).2.length : Int)) := by
    simp only [ParseAndAnalyzeBuffer, AnalyzeLogLines]
    rw [hfold, hB]
    simp only [List.foldl_cons]
    try rw [← hs1]
    have h9 : (splitBuf (A ++ B)).2 = (splitBuf B).2 := by rw [hsplit]
    try rw [h9]
    try rfl
  have hsecond : ParseAndAnalyzeBuffer year B
      (ParseAndAnalyzeBuffer year A o goZeroTime).2.2 goZeroTime
      = ((rest.foldl (scanStep year goZeroTime) s2).lls, [],
         (rest.foldl (scanStep year goZeroTime) s2).off + ((splitBuf B).2.length : Int)) := by
    rw [hoffA]
    simp only [ParseAndAnalyzeBuffer, AnalyzeLogLines]
    rw [hB]
    simp only [List.foldl_cons]
    try rw [← hs2]
    try rfl
  constructor
  · rw [hwhole, hsecond, hPA]
    simpa using hshift.1
  · rw [hwhole, hsecond]
    simp only []
    rw [hshift.2]


/-- Claim C9: on a buffer whose first line matches the Heroku debug envelope
but carries no SQLSTATE and no log level, DebugParseAndAnalyzeBuffer reaches
the Heroku continuation branch with an empty output sequence and performs the
unguarded last-element access, modelled as the panic value none. -/
theorem claim_C9 :
    (reFind HerokuPostgresDebugRegexp (str "[f] [1-2] hello\n")).isSome = true ∧
    part ((reFind HerokuPostgresDebugRegexp (str "[f] [1-2] hello\n")).getD []) 4 = [] ∧
    part ((reFind HerokuPostgresDebugRegexp (str "[f] [1-2] hello\n")).getD []) 5 = [] ∧
    DebugParseAndAnalyzeBuffer 2026 (str "[f] [1-2] hello\n") = none := by
  decide!

/-- Claim C10: for a syslog-framed line the parser replaces every occurrence
of the literal "#011" in the unwrapped payload with a tab before storing it as
content — so the stored content is not byte-identical to the raw captured
payload — and the replacement happens before the bracketed sub-format
recovery, as the second concrete line (whose payload carries both a
[user=...,db=...,app=...] block and a "#011") shows. -/
theorem claim_C10 :
    part ((reFind RsyslogRegexp
        (str "Oct  5 11:26:33 host postgres[1234]: [2-1] LOG:  ab#011cd\n")).getD []) 7
      = str "ab#011cd\n" ∧
    ParseLogLineWithPrefix 2026 []
        (str "Oct  5 11:26:33 host postgres[1234]: [2-1] LOG:  ab#011cd\n")
      = ({ occurredAt := ⟨civilSec 2026 10 5 11 26 33, 0⟩, backendPid := 1234, logLevel := 6,
           content := str "ab\tcd\n" }, true) ∧
    str "ab\tcd\n" = replace011 (str "ab#011cd\n") ∧
    str "ab\tcd\n" ≠ str "ab#011cd\n" ∧
    ParseLogLineWithPrefix 2026 []
        (str "Oct  5 11:26:33 host postgres[1234]: [2-1] [user=u,db=d,app=a] LOG:  x#011y\n")
      = ({ occurredAt := ⟨civilSec 2026 10 5 11 26 33, 0⟩, username := str "u",
           database := str "d", application := str "a", backendPid := 1234, logLevel := 6,
           content := str "x\ty\n" }, true) := by
  decide!

/-- Claim C1, counterexample to the original statement: splitting the buffer
"2021-01-02 03:04:05 +0000 [1] LOG:  x\nab\n" at the line boundary after the
first line and feeding the two pieces as successive calls (offset 0, then the
returned offset, zero cutoff) does not reproduce the single-call result even
up to UUIDs: in the whole-buffer run the continuation line "ab\n" is appended
to the first record's content and byte_end, while in the split run the second
call starts with an empty sequence and drops it. -/
theorem claim_C1_counterexample :
    (str "2021-01-02 03:04:05 +0000 [1] LOG:  x\n").getLast? = some 10 ∧
    ¬ ((ParseAndAnalyzeBuffer 2026
          (str "2021-01-02 03:04:05 +0000 [1] LOG:  x\n" ++ str "ab\n") 0 goZeroTime).1.map
            sansUuid =
        ((ParseAndAnalyzeBuffer 2026 (str "2021-01-02 03:04:05 +0000 [1] LOG:  x\n")
            0 goZeroTime).1 ++
         (ParseAndAnalyzeBuffer 2026 (str "ab\n")
            (ParseAndAnalyzeBuffer 2026 (str "2021-01-02 03:04:05 +0000 [1] LOG:  x\n")
              0 goZeroTime).2.2 goZeroTime).1).map sansUuid) := by
  decide!

/-- Witness for the amended claim C1 at a concrete buffer whose second piece
starts with a new record and continues with a continuation line. -/
theorem claim_C1_witness :
    (ParseAndAnalyzeBuffer 2026
        (str "2021-01-02 03:04:05 +0000 [1] LOG:  a\n"
          ++ str "2021-01-02 03:04:06 +0000 [1] LOG:  b\nmore\n") 5 goZeroTime).1.map
          sansUuid =
      ((ParseAndAnalyzeBuffer 2026 (str "2021-01-02 03:04:05 +0000 [1] LOG:  a\n")
          5 goZeroTime).1 ++
       (ParseAndAnalyzeBuffer 2026 (str "2021-01-02 03:04:06 +0000 [1] LOG:  b\nmore\n")
          (ParseAndAnalyzeBuffer 2026 (str "2021-01-02 03:04:05 +0000 [1] LOG:  a\n")
            5 goZeroTime).2.2 goZeroTime).1).map sansUuid ∧
    (ParseAndAnalyzeBuffer 2026
        (str "2021-01-02 03:04:05 +0000 [1] LOG:  a\n"
          ++ str "2021-01-02 03:04:06 +0000 [1] LOG:  b\nmore\n") 5 goZeroTime).2.2 =
      (ParseAndAnalyzeBuffer 2026 (str "2021-01-02 03:04:06 +0000 [1] LOG:  b\nmore\n")
        (ParseAndAnalyzeBuffer 2026 (str "2021-01-02 03:04:05 +0000 [1] LOG:  a\n")
          5 goZeroTime).2.2 goZeroTime).2.2 :=
  claim_C1 2026 (str "2021-01-02 03:04:05 +0000 [1] LOG:  a\n")
    (str "2021-01-02 03:04:06 +0000 [1] LOG:  b\nmore\n") 5
    (str "2021-01-02 03:04:06 +0000 [1] LOG:  b\n") [str "more\n"]
    (by decide!) (by decide!) (by decide!) (by decide!)

/-- Witness for claim C3's merge conjunct at a concrete state and line. -/
theorem claim_C3_witness :
    scanStep 2026 goZeroTime ⟨[({} : LogLine)], 0, 0⟩ (str "ab\n") =
      { lls := [] ++ [{ ({} : LogLine) with
          content := ({} : LogLine).content
            ++ (ParseLogLineWithPrefix 2026 [] (str "ab\n")).1.content,
          byteEnd := ({} : LogLine).byteEnd
            + ((ParseLogLineWithPrefix 2026 [] (str "ab\n")).1.content.length : Int) }],
        ctr := 0, off := (0 : Int) + ((str "ab\n").length : Int) } :=
  claim_C3.1 2026 goZeroTime ⟨[{}], 0, 0⟩ (str "ab\n") [] {} (by decide!) rfl (by decide!)

/-- Witness for the amended claim C4 at the concrete unknown-level line. -/
theorem claim_C4_witness :
    ∃ fmt alt tp lv, lv ≠ [] ∧
      goTimeParse2 fmt alt tp
        = some ({ occurredAt := ⟨civilSec 2021 1 2 3 4 5, 0⟩, backendPid := 1,
                  logLevel := 0, content := str "x\n" } : LogLine).occurredAt ∧
      ({ occurredAt := ⟨civilSec 2021 1 2 3 4 5, 0⟩, backendPid := 1,
         logLevel := 0, content := str "x\n" } : LogLine).logLevel
        = (logLevelValue lv).getD 0 :=
  claim_C4.1 2026 [] (str "2021-01-02 03:04:05 UTC [1] foo:  x\n")
    { occurredAt := ⟨civilSec 2021 1 2 3 4 5, 0⟩, backendPid := 1, logLevel := 0,
      content := str "x\n" } (by decide!)

/-- Witness for claim C5 at the concrete line matching both custom 3 and
custom 4. -/
theorem claim_C5_witness :
    ParseLogLineWithPrefix 2026 []
        (str "2020-01-02 03:04:05 UTC [1] [user=a,db=b,app=c,host=d] LOG:  x\n") =
      ParseLogLineWithPrefix 2026 LogPrefixCustom4
        (str "2020-01-02 03:04:05 UTC [1] [user=a,db=b,app=c,host=d] LOG:  x\n") :=
  claim_C5.1 2026 (str "2020-01-02 03:04:05 UTC [1] [user=a,db=b,app=c,host=d] LOG:  x\n")
    (by decide!) (by decide!) (by decide!) (by decide!)

/-- Witness for claim C6's filter conjunct at the concrete old line. -/
theorem claim_C6_witness :
    scanStep 2026 ⟨civilSec 2021 1 1 0 0 0, 0⟩ ⟨[], 0, 0⟩
        (str "2000-01-01 00:00:00 +0000 [1] LOG:  old\n") =
      { lls := [], ctr := 0,
        off := (0 : Int) + ((str "2000-01-01 00:00:00 +0000 [1] LOG:  old\n").length : Int) } :=
  claim_C6.1 2026 ⟨civilSec 2021 1 1 0 0 0, 0⟩ ⟨[], 0, 0⟩
    (str "2000-01-01 00:00:00 +0000 [1] LOG:  old\n") (by decide!) (by decide!)

/-- Witness for claim C7's time-failure conjunct at the month-13 timestamp. -/
theorem claim_C7_witness :
    finishParse .pgDefault (some .pgNamedZone) {} (str "2020-13-01 00:00:00 UTC")
      [] [] [] [] (str "LOG") (str "x\n") = ({}, false) :=
  claim_C7.1 .pgDefault (some .pgNamedZone) {} (str "2020-13-01 00:00:00 UTC")
    [] [] [] [] (str "LOG") (str "x\n") (by decide!)

/-- Witness for the amended claim C8 at a concrete Amazon RDS line. -/
theorem claim_C8_witness :
    ParseLogLineWithPrefix 2026 []
        (str "2021-01-02 03:04:05 UTC:1.2.3.4(5):u@d:[9]:LOG:  y\n") =
      ParseLogLineWithPrefix 2026 LogPrefixAmazonRds
        (str "2021-01-02 03:04:05 UTC:1.2.3.4(5):u@d:[9]:LOG:  y\n") :=
  claim_C8.2 2026 (str "2021-01-02 03:04:05 UTC:1.2.3.4(5):u@d:[9]:LOG:  y\n")
    LogPrefixAmazonRds (by decide!) (by decide!)


end Collector
